import Mathlib

/-!
Shallow embedding of the TeleAPI HTTP gateway (src/main.rs) and proofs about
its request-dispatch pipeline: authentication, routing, template expansion,
action dispatch, and the write-file action's ordered side-effect steps.

Conventions of the embedding:
* Strings are Rust `String`/`&str`; positions inside the template expander are
  char positions in the string's character list.  The braces found by
  `str::find` are one-byte ASCII characters, so char positions and Rust's byte
  positions give the same slicing behaviour.
* External effects (filesystem, process spawning, user database) are supplied
  by an `Env` of oracles; each call the code makes is recorded, in order, in a
  trace of `Effect`s.
* A Rust panic (a failed `unwrap`/`expect`, or an out-of-range slice such as
  `&input[start+1..end]` with `start+1 > end`) is the `fault` outcome.
* `expand_vars` is recursive and can fail to terminate, so it is embedded with
  explicit fuel (`expandFuel`); `none` means the fuel ran out, and divergence
  of the Rust function on an input is `expandFuel n _ _ = none` for every `n`.
-/

namespace TeleAPI

/-- One configured endpoint, mirroring `struct Command` in src/main.rs. -/
structure Command where
  endpoint : String
  shell : Option String
  read_file : Option String
  read_bin_file : Option String
  write_file : Option String
  user : Option String
  group : Option String
  mode : Option Nat
deriving DecidableEq, Repr

/-- Server configuration, mirroring `struct Config` in src/main.rs. -/
structure Config where
  listen : String
  listen_port : Nat
  apikey : String
  commands : List Command
deriving DecidableEq, Repr

/-- The captured result of a spawned process, as seen by
`CommandResult::from_output`: `code = none` models a process terminated
without an exit code (e.g. killed by a signal, `status.code()` is `None`);
`stdout`/`stderr` are `some s` when the captured bytes are valid UTF-8
decoding to `s`, and `none` when they are not valid text
(`String::from_utf8` returns `Err`). -/
structure Output where
  code : Option Int
  stdout : Option String
  stderr : Option String
deriving DecidableEq, Repr

/-- Mirrors `struct CommandResult` in src/main.rs. -/
structure CommandResult where
  retcode : Int
  stdout : String
  stderr : String
deriving DecidableEq, Repr

/-- Mirrors `CommandResult::from_output`: `unwrap_or(0)` on the exit code and
`unwrap_or(String::new())` on each decoded stream. -/
def CommandResult.from_output (out : Output) : CommandResult :=
  { retcode := out.code.getD 0
    stdout := out.stdout.getD ""
    stderr := out.stderr.getD "" }

/-- Result of `read_to_string` on the request's body stream: `ok s` when the
whole body reads as the text `s`; `err` when reading fails (an I/O error or
bytes that are not valid UTF-8, where `read_to_string` returns `Err`). -/
inductive BodyRead where
  | ok (s : String)
  | err
deriving DecidableEq, Repr

/-- An incoming HTTP request as the handler observes it: `url` is the path
(`request.url()`), `queryParams` the decoded query parameters served by
`request.get_param`, and `body` is `request.data()` (`none` when the body was
already extracted / no stream exists). -/
structure Request where
  method : String
  url : String
  headers : List (String × String)
  queryParams : List (String × String)
  body : Option BodyRead
deriving DecidableEq, Repr

/-- The responses the handler can build, one constructor per construction
site in src/main.rs. -/
inductive Response where
  /-- `empty_with_status(code)`: given status, empty body. -/
  | emptyStatus (code : Nat)
  /-- `Response::text(cont)`: 200, plain-text body. -/
  | text (s : String)
  /-- `Response::from_file("application/octet-stream", f)`: 200, streams the file. -/
  | fromFile (filename : String)
  /-- `Response::json(&res)`: 200, JSON body. -/
  | json (r : CommandResult)
  /-- `Response::empty_404()`. -/
  | notFound404
deriving DecidableEq, Repr

/-- The HTTP status code of each response shape. -/
def Response.status : Response → Nat
  | .emptyStatus c => c
  | .text _ => 200
  | .fromFile _ => 200
  | .json _ => 200
  | .notFound404 => 404

/-- One external operation invoked by the handler, recorded in order of
invocation (successful or not; the outcome comes from the `Env`). -/
inductive Effect where
  /-- reading the request body stream (`request.data()` was `Some`). -/
  | readBody
  /-- `std::fs::write(filename, content)`. -/
  | fileWrite (filename : String) (content : String)
  /-- `std::fs::set_permissions` with the given mode bits. -/
  | setPerms (filename : String) (mode : Nat)
  /-- `nix::unistd::chown(filename, uid, gid)`. -/
  | chownE (filename : String) (uid : Option Nat) (gid : Option Nat)
  /-- spawning `sh -c cmd`. -/
  | spawn (cmd : String)
  /-- `std::fs::read_to_string(filename)` (the text read action). -/
  | readTextFile (filename : String)
  /-- `File::open(filename)` for the binary read action. -/
  | openBinFile (filename : String)
deriving DecidableEq, Repr

/-- Outcome of running a piece of the handler: a response together with the
trace of effects invoked, or a Rust panic (`fault`). -/
inductive ROutcome where
  | resp (r : Response) (effects : List Effect)
  | fault
deriving DecidableEq, Repr

/-- Oracles for every external operation the handler performs.  Each field
answers one kind of call; `Option`/`Bool` results model the `Result`s of the
corresponding Rust API. -/
structure Env where
  /-- `Command::new("sh").arg("-c").arg(cmd).output()`: `none` = spawn failure. -/
  shellRun : String → Option Output
  /-- `std::fs::read_to_string`: `none` = any I/O error. -/
  readToString : String → Option String
  /-- does `File::open` succeed? -/
  openFile : String → Bool
  /-- does `std::fs::write` succeed? -/
  fsWrite : String → String → Bool
  /-- does `std::fs::metadata` succeed? -/
  getMetadata : String → Bool
  /-- does `std::fs::set_permissions` succeed? -/
  setPermissions : String → Nat → Bool
  /-- `users::get_user_by_name`, yielding the uid. -/
  getUserByName : String → Option Nat
  /-- `users::get_group_by_name`, yielding the gid. -/
  getGroupByName : String → Option Nat
  /-- does `chown(filename, uid, gid)` succeed? -/
  chown : String → Option Nat → Option Nat → Bool

/-! ## Template expansion (`expand_vars`) -/

/-- `request.get_param(name)`: the first query parameter named `name`. -/
def get_param : List (String × String) → String → Option String
  | [], _ => none
  | (k, v) :: ps, n => if k = n then some v else get_param ps n

/-- `str::find(c)`: position of the first occurrence of `c`. -/
def findIdx (c : Char) : List Char → Option Nat
  | [] => none
  | a :: l => if a = c then some 0 else (findIdx c l).map (· + 1)

/-- What one pass of `expand_vars` (before its tail-recursive call) does. -/
inductive StepR where
  /-- return the input unchanged (no brace pair, or the parameter is absent). -/
  | ret (l : List Char)
  /-- a substitution happened; recurse on the new string. -/
  | recur (l : List Char)
  /-- the slice `input[start+1..end]` is out of range (`start+1 > end`): panic. -/
  | fault
deriving DecidableEq, Repr

/-- One pass of `expand_vars` from src/main.rs: find the first `\x7b` and the
first `\x7d` independently; if both exist, slice the name strictly between
them — which panics when `start+1 > end` — look it up among the query
parameters, and on success replace the whole span (braces included) by the
value and recurse; in every other case return the input unchanged. -/
def expandStep (ps : List (String × String)) (input : List Char) : StepR :=
  match findIdx '\x7b' input, findIdx '\x7d' input with
  | some s, some e =>
    if e < s + 1 then .fault
    else
      match get_param ps (String.mk ((input.drop (s + 1)).take (e - (s + 1)))) with
      | some p => .recur (input.take s ++ p.toList ++ input.drop (e + 1))
      | none => .ret input
  | _, _ => .ret input

/-- Final outcome of `expand_vars`: the expanded string, or a panic. -/
inductive EOutcome where
  | ok (l : List Char)
  | fault
deriving DecidableEq, Repr

/-- `expand_vars` with explicit fuel for its recursion: `none` means the fuel
ran out; divergence of the Rust function on an input is `expandFuel n _ _ =
none` for every `n`. -/
def expandFuel : Nat → List (String × String) → List Char → Option EOutcome
  | 0, _, _ => none
  | n + 1, ps, input =>
    match expandStep ps input with
    | .ret l => some (.ok l)
    | .fault => some .fault
    | .recur l => expandFuel n ps l

/-! ## Actions -/

/-- `read_bin_file` from src/main.rs: `File::open`, streaming the file on
success and answering 404 on any open error. -/
def read_bin_file (env : Env) (filename : String) : Response :=
  if env.openFile filename then .fromFile filename else .notFound404

/-- `read_file` from src/main.rs: `fs::read_to_string`, a plain-text 200 on
success and 404 on any error. -/
def read_file (env : Env) (filename : String) : Response :=
  match env.readToString filename with
  | some cont => .text cont
  | none => .notFound404

/-- `shell` from src/main.rs: drain the body if a stream exists — the
`read_to_string(..).unwrap()` panics when the read fails — then spawn
`sh -c cmd`, answering the JSON command result on success and an empty 500
on spawn failure. -/
def shell (env : Env) (cmd : String) (req : Request) : ROutcome :=
  match req.body with
  | some .err => .fault
  | some (.ok _) =>
    match env.shellRun cmd with
    | some out => .resp (.json (CommandResult.from_output out)) [.readBody, .spawn cmd]
    | none => .resp (.emptyStatus 500) [.readBody, .spawn cmd]
  | none =>
    match env.shellRun cmd with
    | some out => .resp (.json (CommandResult.from_output out)) [.spawn cmd]
    | none => .resp (.emptyStatus 500) [.spawn cmd]

/-- The group checkpoint of `write_file` (the final `match &cmd.group`),
continuing from the trace accumulated so far: resolve the group name, then
`chown(filename, None, Some(gid))`; any failure is an immediate empty 500,
success of every remaining step an empty 201. -/
def write_group_step (env : Env) (cmd : Command) (filename : String)
    (tr : List Effect) : ROutcome :=
  match cmd.group with
  | none => .resp (.emptyStatus 201) tr
  | some g =>
    match env.getGroupByName g with
    | none => .resp (.emptyStatus 500) tr
    | some gid =>
      if env.chown filename none (some gid) then
        .resp (.emptyStatus 201) (tr ++ [.chownE filename none (some gid)])
      else
        .resp (.emptyStatus 500) (tr ++ [.chownE filename none (some gid)])

/-- The owner checkpoint of `write_file` (the `match &cmd.user`): resolve the
user name, then `chown(filename, Some(uid), None)`; failure is an immediate
empty 500, success continues with the group checkpoint. -/
def write_user_step (env : Env) (cmd : Command) (filename : String)
    (tr : List Effect) : ROutcome :=
  match cmd.user with
  | none => write_group_step env cmd filename tr
  | some u =>
    match env.getUserByName u with
    | none => .resp (.emptyStatus 500) tr
    | some uid =>
      if env.chown filename (some uid) none then
        write_group_step env cmd filename (tr ++ [.chownE filename (some uid) none])
      else
        .resp (.emptyStatus 500) (tr ++ [.chownE filename (some uid) none])

/-- The mode checkpoint of `write_file` (the `match cmd.mode`): fetch the
file's metadata, then `set_permissions` with the configured bits; failure is
an immediate empty 500, success continues with the owner checkpoint. -/
def write_mode_step (env : Env) (cmd : Command) (filename : String)
    (tr : List Effect) : ROutcome :=
  match cmd.mode with
  | none => write_user_step env cmd filename tr
  | some m =>
    if env.getMetadata filename then
      if env.setPermissions filename m then
        write_user_step env cmd filename (tr ++ [.setPerms filename m])
      else
        .resp (.emptyStatus 500) (tr ++ [.setPerms filename m])
    else
      .resp (.emptyStatus 500) tr

/-- `write_file` from src/main.rs: `expect` the configured path template
(panic when absent), expand it, then run the checkpoints in order — read the
whole body, `fs::write`, mode, owner, group — where the first failing
checkpoint answers an empty 500 at once, skipping the rest. -/
def write_file (fuel : Nat) (env : Env) (cmd : Command) (req : Request) :
    Option ROutcome :=
  match cmd.write_file with
  | none => some .fault
  | some cmdfn =>
    match expandFuel fuel req.queryParams cmdfn.toList with
    | none => none
    | some .fault => some .fault
    | some (.ok fnL) =>
      let filename := String.mk fnL
      match req.body with
      | none => some (.resp (.emptyStatus 500) [])
      | some .err => some (.resp (.emptyStatus 500) [.readBody])
      | some (.ok sdata) =>
        if env.fsWrite filename sdata then
          some (write_mode_step env cmd filename
            [.readBody, .fileWrite filename sdata])
        else
          some (.resp (.emptyStatus 500) [.readBody, .fileWrite filename sdata])

/-! ## Dispatch and the request handler -/

/-- `execute` from src/main.rs: the method-keyed dispatcher.  POST/PUT try
`write_file` then `shell`; GET tries `read_bin_file`, then `read_file`, then
`shell`; DELETE and any other method answer an empty 500, as does a matched
command with no field set for the method. -/
def execute (fuel : Nat) (env : Env) (cmd : Command) (req : Request) :
    Option ROutcome :=
  if req.method = "POST" ∨ req.method = "PUT" then
    match cmd.write_file with
    | some _ => write_file fuel env cmd req
    | none =>
      match cmd.shell with
      | some shellcmd =>
        match expandFuel fuel req.queryParams shellcmd.toList with
        | none => none
        | some .fault => some .fault
        | some (.ok expcmd) => some (shell env (String.mk expcmd) req)
      | none => some (.resp (.emptyStatus 500) [])
  else if req.method = "GET" then
    match cmd.read_bin_file with
    | some filename =>
      match expandFuel fuel req.queryParams filename.toList with
      | none => none
      | some .fault => some .fault
      | some (.ok fnL) =>
        some (.resp (read_bin_file env (String.mk fnL)) [.openBinFile (String.mk fnL)])
    | none =>
      match cmd.read_file with
      | some filename =>
        match expandFuel fuel req.queryParams filename.toList with
        | none => none
        | some .fault => some .fault
        | some (.ok fnL) =>
          some (.resp (read_file env (String.mk fnL)) [.readTextFile (String.mk fnL)])
      | none =>
        match cmd.shell with
        | some shellcmd =>
          match expandFuel fuel req.queryParams shellcmd.toList with
          | none => none
          | some .fault => some .fault
          | some (.ok expcmd) => some (shell env (String.mk expcmd) req)
        | none => some (.resp (.emptyStatus 500) [])
  else if req.method = "DELETE" then
    some (.resp (.emptyStatus 500) [])
  else
    some (.resp (.emptyStatus 500) [])

/-- The header loop of `check_auth`: true at the first header named exactly
"Authorization" whose value equals the configured apikey. -/
def auth_scan : List (String × String) → String → Bool
  | [], _ => false
  | (k, v) :: hs, key =>
    if k = "Authorization" ∧ v = key then true else auth_scan hs key

/-- `check_auth` from src/main.rs. -/
def check_auth (req : Request) (conf : Config) : Bool :=
  auth_scan req.headers conf.apikey

/-- The routing loop of `handle_http_request`: the first command whose
`endpoint` equals `request.url()` is executed; no match is `empty_404`. -/
def route_execute (fuel : Nat) (env : Env) (req : Request) :
    List Command → Option ROutcome
  | [] => some (.resp .notFound404 [])
  | c :: cs =>
    if c.endpoint = req.url then execute fuel env c req
    else route_execute fuel env req cs

/-- `handle_http_request` from src/main.rs: a failed `check_auth` is an
immediate empty 401; otherwise route and execute. -/
def handle_http_request (fuel : Nat) (env : Env) (req : Request)
    (conf : Config) : Option ROutcome :=
  if check_auth req conf then route_execute fuel env req conf.commands
  else some (.resp (.emptyStatus 401) [])

/-- A concrete environment where every external operation succeeds, used to
evaluate the embedding at concrete inputs. -/
def envOk : Env where
  shellRun := fun _ => some { code := some 0, stdout := some "", stderr := some "" }
  readToString := fun _ => some ""
  openFile := fun _ => true
  fsWrite := fun _ _ => true
  getMetadata := fun _ => true
  setPermissions := fun _ _ => true
  getUserByName := fun _ => some 0
  getGroupByName := fun _ => some 0
  chown := fun _ _ _ => true

/-! ## Lemmas about `findIdx`, `get_param` and `expandStep` -/

lemma findIdx_eq_none (c : Char) : ∀ l : List Char, c ∉ l → findIdx c l = none := by
  intro l hl
  induction l with
  | nil => rfl
  | cons a t ih =>
    have ha : ¬a = c := fun h => hl (h ▸ List.mem_cons_self a t)
    have ht : c ∉ t := fun h => hl (List.mem_cons_of_mem a h)
    simp [findIdx, ha, ih ht]

lemma findIdx_getElem (c : Char) :
    ∀ (l : List Char) (i : Nat), findIdx c l = some i →
      l[i]? = some c ∧ c ∉ l.take i := by
  intro l
  induction l with
  | nil => intro i h; simp [findIdx] at h
  | cons a t ih =>
    intro i h
    by_cases ha : a = c
    · simp [findIdx, ha] at h
      subst h ha
      simp
    · simp [findIdx, ha] at h
      obtain ⟨j, hj, hji⟩ := h
      obtain ⟨h1, h2⟩ := ih j hj
      subst hji
      refine ⟨by simpa using h1, ?_⟩
      simp [List.take_succ_cons, ha, h2]
      exact fun h => ha h.symm

lemma get_param_mem : ∀ (ps : List (String × String)) (n v : String),
    get_param ps n = some v → ∃ k, (k, v) ∈ ps := by
  intro ps
  induction ps with
  | nil => intro n v h; simp [get_param] at h
  | cons p t ih =>
    intro n v h
    obtain ⟨k0, v0⟩ := p
    by_cases hk : k0 = n
    · simp [get_param, hk] at h
      subst h
      exact ⟨k0, List.mem_cons_self _ _⟩
    · simp [get_param, hk] at h
      obtain ⟨k, hkmem⟩ := ih n v h
      exact ⟨k, List.mem_cons_of_mem _ hkmem⟩

/-- Inversion of a substituting pass of `expandStep`. -/
lemma expandStep_recur_shape (ps : List (String × String)) (l l' : List Char)
    (h : expandStep ps l = .recur l') :
    ∃ s e p, findIdx '\x7b' l = some s ∧ findIdx '\x7d' l = some e ∧ s + 1 ≤ e ∧
      get_param ps (String.mk ((l.drop (s + 1)).take (e - (s + 1)))) = some p ∧
      l' = l.take s ++ p.toList ++ l.drop (e + 1) := by
  unfold expandStep at h
  cases h1 : findIdx '\x7b' l with
  | none => rw [h1] at h; simp at h
  | some s =>
    cases h2 : findIdx '\x7d' l with
    | none => rw [h1, h2] at h; simp at h
    | some e =>
      rw [h1, h2] at h
      by_cases hse : e < s + 1
      · simp [hse] at h
      · simp [hse] at h
        cases h3 : get_param ps (String.mk ((l.drop (s + 1)).take (e - (s + 1)))) with
        | none => rw [h3] at h; simp at h
        | some p =>
          rw [h3] at h
          simp at h
          rw [← List.append_assoc] at h
          exact ⟨s, e, p, rfl, rfl, Nat.not_lt.mp hse, h3, h.symm⟩

/-- A substituting pass with brace-free parameter values strictly decreases
the number of open braces. -/
lemma count_lt_of_recur (ps : List (String × String)) (l l' : List Char)
    (hps : ∀ p ∈ ps, ('\x7b' : Char) ∉ p.2.toList)
    (h : expandStep ps l = .recur l') :
    l'.count '\x7b' < l.count '\x7b' := by
  obtain ⟨s, e, p, h1, h2, hse, hp, hl'⟩ := expandStep_recur_shape ps l l' h
  obtain ⟨hget, htake⟩ := findIdx_getElem '\x7b' l s h1
  have hcount_take : (l.take s).count '\x7b' = 0 := List.count_eq_zero.mpr htake
  obtain ⟨k, hkmem⟩ := get_param_mem ps _ p hp
  have hcp : p.toList.count '\x7b' = 0 :=
    List.count_eq_zero.mpr (hps (k, p) hkmem)
  have hslt : s < e + 1 := by omega
  have hidx : (l.take (e + 1))[s]? = some '\x7b' := by
    rw [List.getElem?_take]
    simp [hslt, hget]
  have hmem_take : ('\x7b' : Char) ∈ l.take (e + 1) := List.getElem?_mem hidx
  have hpos : 0 < (l.take (e + 1)).count '\x7b' := List.count_pos_iff.mpr hmem_take
  have hsplit : l.count '\x7b' =
      (l.take (e + 1)).count '\x7b' + (l.drop (e + 1)).count '\x7b' := by
    conv_lhs => rw [← List.take_append_drop (e + 1) l]
    exact List.count_append ..
  have hcp' : List.count '\x7b' p.data = 0 := hcp
  have hl'count : l'.count '\x7b' = (l.drop (e + 1)).count '\x7b' := by
    subst hl'
    simp [List.count_append, hcount_take, hcp, hcp']
  omega

lemma recur_has_brace (ps : List (String × String)) (l l' : List Char)
    (h : expandStep ps l = .recur l') : ('\x7b' : Char) ∈ l := by
  obtain ⟨s, _, _, h1, _⟩ := expandStep_recur_shape ps l l' h
  exact List.getElem?_mem (findIdx_getElem '\x7b' l s h1).1

/-- With brace-free parameter values, expansion reaches an outcome within
`count` + 1 passes, `count` the number of open braces. -/
lemma expand_terminates_aux (ps : List (String × String))
    (hps : ∀ p ∈ ps, ('\x7b' : Char) ∉ p.2.toList) :
    ∀ (N : Nat) (l : List Char), l.count '\x7b' ≤ N →
      ∃ o, expandFuel (N + 1) ps l = some o := by
  intro N
  induction N with
  | zero =>
    intro l hc
    cases hstep : expandStep ps l with
    | ret m => exact ⟨.ok m, by simp [expandFuel, hstep]⟩
    | fault => exact ⟨.fault, by simp [expandFuel, hstep]⟩
    | recur m =>
      have : 0 < l.count '\x7b' := List.count_pos_iff.mpr (recur_has_brace ps l m hstep)
      omega
  | succ M ih =>
    intro l hc
    cases hstep : expandStep ps l with
    | ret m => exact ⟨.ok m, by simp [expandFuel, hstep]⟩
    | fault => exact ⟨.fault, by simp [expandFuel, hstep]⟩
    | recur m =>
      have hlt : m.count '\x7b' < l.count '\x7b' := count_lt_of_recur ps l m hps hstep
      obtain ⟨o, ho⟩ := ih m (by omega)
      exact ⟨o, by simp only [expandFuel, hstep]; exact ho⟩

/-! ## Claim theorems about template expansion (C4, C6, C7) -/

/-- C4: Template expansion satisfies the four stated behaviours: the template
"/\x7bname\x7d" with query parameter name=value expands to "/value"; a
template containing no brace is returned unchanged; a template whose
extracted parameter name is not among the query parameters is returned
unchanged with the braces still present; and a substituted value that itself
contains a resolvable placeholder is resolved within the same expansion
call. -/
theorem expand_vars_spec_examples :
    (expandFuel 2 [("name", "value")] "/\x7bname\x7d".toList
      = some (.ok "/value".toList))
    ∧ (∀ (n : Nat) (ps : List (String × String)) (l : List Char),
        '\x7b' ∉ l → '\x7d' ∉ l → expandFuel (n + 1) ps l = some (.ok l))
    ∧ (∀ (n : Nat) (ps : List (String × String)) (l : List Char) (s e : Nat),
        findIdx '\x7b' l = some s → findIdx '\x7d' l = some e → s + 1 ≤ e →
        get_param ps (String.mk ((l.drop (s + 1)).take (e - (s + 1)))) = none →
        expandFuel (n + 1) ps l = some (.ok l))
    ∧ (expandFuel 3 [("a", "x\x7bb\x7dy"), ("b", "z")] "\x7ba\x7d".toList
      = some (.ok "xzy".toList)) := by
  refine ⟨by decide, ?_, ?_, by decide⟩
  · intro n ps l hb _
    have h1 : findIdx '\x7b' l = none := findIdx_eq_none _ l hb
    have hstep : expandStep ps l = .ret l := by
      unfold expandStep
      rw [h1]
    simp [expandFuel, hstep]
  · intro n ps l s e h1 h2 hse hget
    have hstep : expandStep ps l = .ret l := by
      unfold expandStep
      rw [h1, h2]
      have : ¬e < s + 1 := by omega
      simp [this, hget]
    simp [expandFuel, hstep]

/-- Witness for C4: the no-brace case evaluated at "abc" and the
absent-parameter case evaluated at "\x7bq\x7d" with query x=y. -/
theorem expand_vars_spec_examples_witness :
    expandFuel 1 [] "abc".toList = some (.ok "abc".toList)
    ∧ expandFuel 1 [("x", "y")] "\x7bq\x7d".toList
      = some (.ok "\x7bq\x7d".toList) :=
  ⟨expand_vars_spec_examples.2.1 0 [] "abc".toList (by decide) (by decide),
   expand_vars_spec_examples.2.2.1 0 [("x", "y")] "\x7bq\x7d".toList 0 2
     (by decide) (by decide) (by decide) (by decide)⟩

lemma expand_loop_aux :
    ∀ n : Nat, expandFuel n [("a", "\x7ba\x7d")] "\x7ba\x7d".toList = none := by
  intro n
  induction n with
  | zero => rfl
  | succ m ih =>
    have hstep : expandStep [("a", "\x7ba\x7d")] "\x7ba\x7d".toList
        = .recur "\x7ba\x7d".toList := by decide
    simpa [expandFuel, hstep] using ih

/-- C6, counterexample: the code does not guard against unbounded recursion —
with query a=\x7ba\x7d the template \x7ba\x7d regenerates itself on every
substitution and `expand_vars` never returns: no amount of fuel reaches an
outcome. -/
theorem expand_vars_unguarded_loop :
    ¬ ∃ (n : Nat) (o : EOutcome),
      expandFuel n [("a", "\x7ba\x7d")] "\x7ba\x7d".toList = some o := by
  rintro ⟨n, o, h⟩
  rw [expand_loop_aux n] at h
  cases h

/-- C6, amended: expansion is not guarded against unbounded recursion (see
the counterexample), but it does terminate whenever no query parameter value
contains an open brace: every such call reaches an outcome — a result string
or a positional-pairing fault. -/
theorem expand_vars_terminates_brace_free
    (ps : List (String × String)) (l : List Char)
    (hps : ∀ p ∈ ps, ('\x7b' : Char) ∉ p.2.toList) :
    ∃ (n : Nat) (o : EOutcome), expandFuel n ps l = some o := by
  obtain ⟨o, ho⟩ := expand_terminates_aux ps hps (l.count '\x7b') l le_rfl
  exact ⟨l.count '\x7b' + 1, o, ho⟩

/-- Witness for the amended C6, at the template \x7ba\x7dtail with the
brace-free query a=b. -/
theorem expand_vars_terminates_brace_free_witness :
    ∃ (n : Nat) (o : EOutcome),
      expandFuel n [("a", "b")] "\x7ba\x7dtail".toList = some o :=
  expand_vars_terminates_brace_free [("a", "b")] "\x7ba\x7dtail".toList
    (by decide)

/-- C7, counterexample: on the input whose first close brace precedes its
first open brace, the slice input[start+1..end] is out of range and
`expand_vars` panics instead of returning a string. -/
theorem expand_vars_positional_fault :
    expandFuel 1 [] ['\x7d', '\x7b'] = some .fault := by decide

/-- C7, amended: a single expansion pass faults exactly when the input
contains both braces with the first close brace strictly before the first
open brace (there the out-of-range slice panics); whenever the first open
brace precedes the first close brace, or either brace is absent, the pass
returns or substitutes without faulting. -/
theorem expand_step_fault_iff (ps : List (String × String)) (l : List Char) :
    expandStep ps l = .fault ↔
      ∃ s e, findIdx '\x7b' l = some s ∧ findIdx '\x7d' l = some e ∧
        e < s + 1 := by
  constructor
  · intro h
    unfold expandStep at h
    cases h1 : findIdx '\x7b' l with
    | none => rw [h1] at h; simp at h
    | some s =>
      cases h2 : findIdx '\x7d' l with
      | none => rw [h1, h2] at h; simp at h
      | some e =>
        rw [h1, h2] at h
        by_cases hse : e < s + 1
        · exact ⟨s, e, rfl, rfl, hse⟩
        · simp [hse] at h
          cases h3 : get_param ps
              (String.mk ((l.drop (s + 1)).take (e - (s + 1)))) with
          | none => rw [h3] at h; simp at h
          | some p => rw [h3] at h; simp at h
  · rintro ⟨s, e, h1, h2, hse⟩
    unfold expandStep
    rw [h1, h2]
    simp [hse]

/-! ## Claim theorems about authentication and routing (C1, C3) -/

lemma auth_scan_eq_false :
    ∀ (hs : List (String × String)) (key : String),
      (∀ p ∈ hs, p.1 = "Authorization" → p.2 ≠ key) →
      auth_scan hs key = false := by
  intro hs
  induction hs with
  | nil => intro key _; rfl
  | cons p t ih =>
    intro key h
    obtain ⟨k, v⟩ := p
    have hp := h (k, v) (List.mem_cons_self _ _)
    have ht := fun q hq => h q (List.mem_cons_of_mem _ hq)
    by_cases hk : k = "Authorization"
    · have hv : ¬v = key := hp hk
      simp [auth_scan, hk, hv, ih key ht]
    · simp [auth_scan, hk, ih key ht]

/-- C1: a request whose Authorization header value differs from the
configured apikey (headers without that name carrying any value, including
no Authorization header at all) is answered 401 with no effects performed,
and the answer does not depend on the command list: the routing and action
logic is never consulted. -/
theorem auth_failure_short_circuits (fuel : Nat) (env : Env) (req : Request)
    (conf : Config)
    (h : ∀ p ∈ req.headers, p.1 = "Authorization" → p.2 ≠ conf.apikey) :
    handle_http_request fuel env req conf
      = some (.resp (.emptyStatus 401) [])
    ∧ ∀ cmds : List Command,
        handle_http_request fuel env req { conf with commands := cmds }
          = some (.resp (.emptyStatus 401) []) := by
  have hca : check_auth req conf = false := auth_scan_eq_false req.headers conf.apikey h
  refine ⟨by simp [handle_http_request, hca], fun cmds => ?_⟩
  have hca' : check_auth req { conf with commands := cmds } = false := hca
  simp [handle_http_request, hca']

/-- A command configured to run a shell action on its endpoint. -/
def cmdEcho : Command :=
  { endpoint := "/x", shell := some "echo hi", read_file := none
    read_bin_file := none, write_file := none, user := none, group := none
    mode := none }

/-- A sample configuration with one command and apikey "secret". -/
def confOne : Config :=
  { listen := "127.0.0.1", listen_port := 8080, apikey := "secret"
    commands := [cmdEcho] }

/-- Witness for C1: a request bearing the wrong Authorization value is
answered 401 with an empty effect trace. -/
theorem auth_failure_short_circuits_witness :
    handle_http_request 1 envOk
      { method := "GET", url := "/x", headers := [("Authorization", "wrong")]
        queryParams := [], body := none } confOne
      = some (.resp (.emptyStatus 401) []) :=
  (auth_failure_short_circuits 1 envOk
    { method := "GET", url := "/x", headers := [("Authorization", "wrong")]
      queryParams := [], body := none } confOne (by decide)).1

lemma route_execute_skip (fuel : Nat) (env : Env) (req : Request) :
    ∀ (cs1 rest : List Command), (∀ c' ∈ cs1, c'.endpoint ≠ req.url) →
      route_execute fuel env req (cs1 ++ rest) = route_execute fuel env req rest := by
  intro cs1
  induction cs1 with
  | nil => intro rest _; rfl
  | cons c t ih =>
    intro rest h
    have hc : ¬c.endpoint = req.url := h c (List.mem_cons_self _ _)
    have ht := fun c' hc' => h c' (List.mem_cons_of_mem _ hc')
    simp [route_execute, hc, ih rest ht]

lemma route_execute_no_match (fuel : Nat) (env : Env) (req : Request) :
    ∀ cs : List Command, (∀ c ∈ cs, c.endpoint ≠ req.url) →
      route_execute fuel env req cs = some (.resp .notFound404 []) := by
  intro cs
  induction cs with
  | nil => intro _; rfl
  | cons c t ih =>
    intro h
    have hc : ¬c.endpoint = req.url := h c (List.mem_cons_self _ _)
    have ht := fun c' hc' => h c' (List.mem_cons_of_mem _ hc')
    simp [route_execute, hc, ih ht]

/-- C3: for an authorized request, the executed command is the first element
of the configured list whose endpoint equals the request path exactly — later
elements, duplicates of the endpoint string included, are never reached — and
when no element's endpoint equals the path the answer is the empty 404. -/
theorem router_first_exact_match (fuel : Nat) (env : Env) (req : Request)
    (conf : Config) (hauth : check_auth req conf = true) :
    (∀ (cs1 : List Command) (c : Command) (cs2 : List Command),
      conf.commands = cs1 ++ c :: cs2 →
      (∀ c' ∈ cs1, c'.endpoint ≠ req.url) → c.endpoint = req.url →
      handle_http_request fuel env req conf = execute fuel env c req)
    ∧ ((∀ c ∈ conf.commands, c.endpoint ≠ req.url) →
      handle_http_request fuel env req conf = some (.resp .notFound404 [])) := by
  constructor
  · intro cs1 c cs2 hsplit hnone hc
    rw [handle_http_request, if_pos hauth, hsplit,
      route_execute_skip fuel env req cs1 (c :: cs2) hnone]
    simp [route_execute, hc]
  · intro hnone
    rw [handle_http_request, if_pos hauth]
    exact route_execute_no_match fuel env req conf.commands hnone

/-- First of two commands sharing the endpoint "/dup". -/
def cmdDupA : Command :=
  { endpoint := "/dup", shell := some "first", read_file := none
    read_bin_file := none, write_file := none, user := none, group := none
    mode := none }

/-- Second command with the duplicate endpoint "/dup". -/
def cmdDupB : Command :=
  { endpoint := "/dup", shell := some "second", read_file := none
    read_bin_file := none, write_file := none, user := none, group := none
    mode := none }

/-- A configuration whose command list holds two commands with the same
endpoint string. -/
def confDup : Config :=
  { listen := "127.0.0.1", listen_port := 8080, apikey := "k"
    commands := [cmdDupA, cmdDupB] }

/-- An authorized GET request to the duplicated endpoint. -/
def reqDup : Request :=
  { method := "GET", url := "/dup", headers := [("Authorization", "k")]
    queryParams := [], body := none }

/-- Witness for C3: with duplicate endpoint strings the handler executes the
first occurrence. -/
theorem router_first_exact_match_witness :
    handle_http_request 1 envOk reqDup confDup = execute 1 envOk cmdDupA reqDup :=
  (router_first_exact_match 1 envOk reqDup confDup (by decide)).1
    [] cmdDupA [cmdDupB] rfl (by simp) rfl

/-! ## Claim theorems about action dispatch (C5) and the write action (C2) -/

lemma mk_toList (s : String) : String.mk s.toList = s := rfl

lemma mk_data (s : String) : String.mk s.data = s := rfl

/-- C5: for a GET request, exactly one action is selected by the strict
precedence read_bin_file, then read_file, then shell; the first field that is
set is executed and later fields are ignored even when set — a command with
both read_bin_file and shell serves the binary file and its effect trace
contains no process spawn — and with none of the three fields set the answer
is the empty 500. -/
theorem get_dispatch_strict_precedence (fuel : Nat) (env : Env)
    (cmd : Command) (req : Request) (hm : req.method = "GET") :
    (∀ t fn : String, cmd.read_bin_file = some t →
      expandFuel fuel req.queryParams t.toList = some (.ok fn.toList) →
      execute fuel env cmd req
        = some (.resp (read_bin_file env fn) [.openBinFile fn])
      ∧ ∀ c : String, Effect.spawn c ∉ [Effect.openBinFile fn])
    ∧ (∀ t fn : String, cmd.read_bin_file = none → cmd.read_file = some t →
      expandFuel fuel req.queryParams t.toList = some (.ok fn.toList) →
      execute fuel env cmd req
        = some (.resp (read_file env fn) [.readTextFile fn]))
    ∧ (∀ t fn : String, cmd.read_bin_file = none → cmd.read_file = none →
      cmd.shell = some t →
      expandFuel fuel req.queryParams t.toList = some (.ok fn.toList) →
      execute fuel env cmd req = some (shell env fn req))
    ∧ (cmd.read_bin_file = none → cmd.read_file = none → cmd.shell = none →
      execute fuel env cmd req = some (.resp (.emptyStatus 500) [])) := by
  refine ⟨?_, ?_, ?_, ?_⟩
  · intro t fn hbin hexp
    have hexp' : expandFuel fuel req.queryParams t.data = some (.ok fn.data) := hexp
    refine ⟨?_, by simp⟩
    simp [execute, hm, hbin, hexp', mk_data]
  · intro t fn hbin hfile hexp
    have hexp' : expandFuel fuel req.queryParams t.data = some (.ok fn.data) := hexp
    simp [execute, hm, hbin, hfile, hexp', mk_data]
  · intro t fn hbin hfile hsh hexp
    have hexp' : expandFuel fuel req.queryParams t.data = some (.ok fn.data) := hexp
    simp [execute, hm, hbin, hfile, hsh, hexp', mk_data]
  · intro hbin hfile hsh
    simp [execute, hm, hbin, hfile, hsh]

/-- A command with both a binary read and a shell action configured. -/
def cmdBinShell : Command :=
  { endpoint := "/b", shell := some "rm -rf /", read_file := none
    read_bin_file := some "/data.bin", write_file := none, user := none
    group := none, mode := none }

/-- A GET request to the binary/shell command's endpoint. -/
def reqGetB : Request :=
  { method := "GET", url := "/b", headers := [("Authorization", "k")]
    queryParams := [], body := none }

/-- Witness for C5: with both read_bin_file and shell set, GET serves the
binary file and the trace holds no spawn. -/
theorem get_dispatch_strict_precedence_witness :
    execute 1 envOk cmdBinShell reqGetB
      = some (.resp (read_bin_file envOk "/data.bin") [.openBinFile "/data.bin"])
    ∧ ∀ c : String, Effect.spawn c ∉ [Effect.openBinFile "/data.bin"] :=
  (get_dispatch_strict_precedence 1 envOk cmdBinShell reqGetB rfl).1
    "/data.bin" "/data.bin" rfl (by decide)

/-- C2: the write action runs its checkpoints in the fixed order body-read,
file write, mode change (if configured), owner change (if configured), group
change (if configured); the first checkpoint that fails answers the empty 500
immediately, skipping every later checkpoint while the trace keeps the
operations already performed (no rollback entries exist); and when every
applicable checkpoint succeeds the answer is 201 with an empty body, the
trace listing all performed operations in order. -/
theorem write_file_ordered_checkpoints (fuel : Nat) (env : Env)
    (cmd : Command) (req : Request) (tmpl fn : String)
    (hw : cmd.write_file = some tmpl)
    (hx : expandFuel fuel req.queryParams tmpl.toList = some (.ok fn.toList)) :
    (req.body = none →
      write_file fuel env cmd req = some (.resp (.emptyStatus 500) []))
    ∧ (req.body = some .err →
      write_file fuel env cmd req = some (.resp (.emptyStatus 500) [.readBody]))
    ∧ (∀ s : String, req.body = some (.ok s) → env.fsWrite fn s = false →
      write_file fuel env cmd req
        = some (.resp (.emptyStatus 500) [.readBody, .fileWrite fn s]))
    ∧ (∀ s : String, req.body = some (.ok s) → env.fsWrite fn s = true →
      write_file fuel env cmd req
        = some (write_mode_step env cmd fn [.readBody, .fileWrite fn s]))
    ∧ (∀ (tr : List Effect) (m : Nat), cmd.mode = some m →
      (env.getMetadata fn = false →
        write_mode_step env cmd fn tr = .resp (.emptyStatus 500) tr)
      ∧ (env.getMetadata fn = true → env.setPermissions fn m = false →
        write_mode_step env cmd fn tr
          = .resp (.emptyStatus 500) (tr ++ [.setPerms fn m]))
      ∧ (env.getMetadata fn = true → env.setPermissions fn m = true →
        write_mode_step env cmd fn tr
          = write_user_step env cmd fn (tr ++ [.setPerms fn m])))
    ∧ (∀ tr : List Effect, cmd.mode = none →
      write_mode_step env cmd fn tr = write_user_step env cmd fn tr)
    ∧ (∀ (tr : List Effect) (u : String), cmd.user = some u →
      (env.getUserByName u = none →
        write_user_step env cmd fn tr = .resp (.emptyStatus 500) tr)
      ∧ (∀ uid : Nat, env.getUserByName u = some uid →
          env.chown fn (some uid) none = false →
          write_user_step env cmd fn tr
            = .resp (.emptyStatus 500) (tr ++ [.chownE fn (some uid) none]))
      ∧ (∀ uid : Nat, env.getUserByName u = some uid →
          env.chown fn (some uid) none = true →
          write_user_step env cmd fn tr
            = write_group_step env cmd fn (tr ++ [.chownE fn (some uid) none])))
    ∧ (∀ tr : List Effect, cmd.user = none →
      write_user_step env cmd fn tr = write_group_step env cmd fn tr)
    ∧ (∀ (tr : List Effect) (g : String), cmd.group = some g →
      (env.getGroupByName g = none →
        write_group_step env cmd fn tr = .resp (.emptyStatus 500) tr)
      ∧ (∀ gid : Nat, env.getGroupByName g = some gid →
          env.chown fn none (some gid) = false →
          write_group_step env cmd fn tr
            = .resp (.emptyStatus 500) (tr ++ [.chownE fn none (some gid)]))
      ∧ (∀ gid : Nat, env.getGroupByName g = some gid →
          env.chown fn none (some gid) = true →
          write_group_step env cmd fn tr
            = .resp (.emptyStatus 201) (tr ++ [.chownE fn none (some gid)])))
    ∧ (∀ tr : List Effect, cmd.group = none →
      write_group_step env cmd fn tr = .resp (.emptyStatus 201) tr)
    ∧ (∀ (s : String) (m : Nat) (u g : String) (uid gid : Nat),
      req.body = some (.ok s) → cmd.mode = some m → cmd.user = some u →
      cmd.group = some g → env.fsWrite fn s = true →
      env.getMetadata fn = true → env.setPermissions fn m = true →
      env.getUserByName u = some uid → env.chown fn (some uid) none = true →
      env.getGroupByName g = some gid → env.chown fn none (some gid) = true →
      write_file fuel env cmd req = some (.resp (.emptyStatus 201)
        [.readBody, .fileWrite fn s, .setPerms fn m,
         .chownE fn (some uid) none, .chownE fn none (some gid)])) := by
  have hx' : expandFuel fuel req.queryParams tmpl.data = some (.ok fn.data) := hx
  refine ⟨?_, ?_, ?_, ?_, ?_, ?_, ?_, ?_, ?_, ?_, ?_⟩
  · intro hb
    simp [write_file, hw, hx', hb, mk_data]
  · intro hb
    simp [write_file, hw, hx', hb, mk_data]
  · intro s hb hwr
    simp [write_file, hw, hx', hb, hwr, mk_data]
  · intro s hb hwr
    simp [write_file, hw, hx', hb, hwr, mk_data]
  · intro tr m hm
    exact ⟨fun h1 => by simp [write_mode_step, hm, h1],
      fun h1 h2 => by simp [write_mode_step, hm, h1, h2],
      fun h1 h2 => by simp [write_mode_step, hm, h1, h2]⟩
  · intro tr hm
    simp [write_mode_step, hm]
  · intro tr u hu
    exact ⟨fun h1 => by simp [write_user_step, hu, h1],
      fun uid h1 h2 => by simp [write_user_step, hu, h1, h2],
      fun uid h1 h2 => by simp [write_user_step, hu, h1, h2]⟩
  · intro tr hu
    simp [write_user_step, hu]
  · intro tr g hg
    exact ⟨fun h1 => by simp [write_group_step, hg, h1],
      fun gid h1 h2 => by simp [write_group_step, hg, h1, h2],
      fun gid h1 h2 => by simp [write_group_step, hg, h1, h2]⟩
  · intro tr hg
    simp [write_group_step, hg]
  · intro s m u g uid gid hb hm hu hg hwr h1 h2 h3 h4 h5 h6
    simp [write_file, hw, hx', hb, hwr, write_mode_step, hm, h1, h2,
      write_user_step, hu, h3, h4, write_group_step, hg, h5, h6, mk_data]

/-- A command writing the request body to /out with mode, owner and group
changes configured. -/
def cmdWriteFull : Command :=
  { endpoint := "/w", shell := none, read_file := none, read_bin_file := none
    write_file := some "/out", user := some "alice", group := some "staff"
    mode := some 420 }

/-- A PUT request with a text body for the write command. -/
def reqPutW : Request :=
  { method := "PUT", url := "/w", headers := [("Authorization", "k")]
    queryParams := [], body := some (.ok "payload") }

/-- Witness for C2: with every checkpoint succeeding, the write action
answers the empty 201 and its trace lists body read, file write, permission
change, owner change and group change in order. -/
theorem write_file_ordered_checkpoints_witness :
    write_file 1 envOk cmdWriteFull reqPutW = some (.resp (.emptyStatus 201)
      [.readBody, .fileWrite "/out" "payload", .setPerms "/out" 420,
       .chownE "/out" (some 0) none, .chownE "/out" none (some 0)]) :=
  (write_file_ordered_checkpoints 1 envOk cmdWriteFull reqPutW "/out" "/out"
    rfl (by decide)).2.2.2.2.2.2.2.2.2.2
    "payload" 420 "alice" "staff" 0 0 rfl rfl rfl rfl rfl rfl rfl rfl rfl rfl rfl

/-! ## Claim theorems about the shell action and its result (C8, C9, C10) -/

/-- A request to a shell endpoint whose body stream exists but whose
`read_to_string` fails (an I/O error, or bytes that are not valid UTF-8). -/
def reqBodyErr : Request :=
  { method := "POST", url := "/s", headers := [("Authorization", "k")]
    queryParams := [], body := some .err }

/-- C8, counterexample: when the existing body stream's read fails — for
instance on a body that is not valid UTF-8, where `read_to_string` returns
`Err` — the `unwrap` in `shell` panics: the body is not discarded silently
and no command is spawned. -/
theorem shell_fault_on_body_read_error : shell envOk "true" reqBodyErr = .fault := by
  decide

/-- C8, amended: whenever a body stream exists and reads successfully as
text, `shell` fully reads and discards it — the outcome is independent of the
body content — and then proceeds to spawn the command, the body read
preceding the spawn in the effect trace; a failing body read instead panics
before any spawn. -/
theorem shell_drains_ok_body (env : Env) (c : String) (req : Request)
    (s : String) (hb : req.body = some (.ok s)) :
    (∀ out : Output, env.shellRun c = some out →
      shell env c req
        = .resp (.json (CommandResult.from_output out)) [.readBody, .spawn c])
    ∧ (env.shellRun c = none →
      shell env c req = .resp (.emptyStatus 500) [.readBody, .spawn c]) :=
  ⟨fun out hrun => by simp [shell, hb, hrun],
   fun hrun => by simp [shell, hb, hrun]⟩

/-- A shell request with an arbitrary successfully-read text body. -/
def reqBodyOk : Request :=
  { method := "POST", url := "/s", headers := [("Authorization", "k")]
    queryParams := [], body := some (.ok "ignored payload") }

/-- Witness for the amended C8: a readable body is drained and the command
spawned, the drain preceding the spawn. -/
theorem shell_drains_ok_body_witness :
    shell envOk "true" reqBodyOk
      = .resp (.json (CommandResult.from_output
          { code := some 0, stdout := some "", stderr := some "" }))
        [.readBody, .spawn "true"] :=
  (shell_drains_ok_body envOk "true" reqBodyOk "ignored payload" rfl).1
    { code := some 0, stdout := some "", stderr := some "" } rfl

/-- C9: when the captured stdout or stderr bytes are not valid text, the
corresponding field of the command result is the empty string, and the
action still answers a 200 JSON response of shape retcode/stdout/stderr: the
invalid stream never fails the action. -/
theorem shell_invalid_text_empty_string (env : Env) (c : String)
    (req : Request) (out : Output) (hrun : env.shellRun c = some out)
    (hb : req.body ≠ some .err) :
    (out.stdout = none → (CommandResult.from_output out).stdout = "")
    ∧ (out.stderr = none → (CommandResult.from_output out).stderr = "")
    ∧ ∃ tr : List Effect,
        shell env c req = .resp (.json (CommandResult.from_output out)) tr
        ∧ (Response.json (CommandResult.from_output out)).status = 200 := by
  refine ⟨fun h => by simp [CommandResult.from_output, h],
    fun h => by simp [CommandResult.from_output, h], ?_⟩
  cases hcase : req.body with
  | none => exact ⟨[.spawn c], by simp [shell, hcase, hrun], rfl⟩
  | some b =>
    cases b with
    | ok s => exact ⟨[.readBody, .spawn c], by simp [shell, hcase, hrun], rfl⟩
    | err => exact absurd hcase hb

/-- A process output whose stdout and stderr bytes are not valid text. -/
def outInv : Output := { code := some 3, stdout := none, stderr := none }

/-- An environment whose spawned process yields the undecodable output. -/
def envInvalidOut : Env := { envOk with shellRun := fun _ => some outInv }

/-- A bodyless authorized request to a shell endpoint. -/
def reqNoBody : Request :=
  { method := "GET", url := "/s", headers := [("Authorization", "k")]
    queryParams := [], body := none }

/-- Witness for C9: undecodable output still yields the 200 JSON response. -/
theorem shell_invalid_text_empty_string_witness :
    ∃ tr : List Effect,
      shell envInvalidOut "cmd" reqNoBody
        = .resp (.json (CommandResult.from_output outInv)) tr
      ∧ (Response.json (CommandResult.from_output outInv)).status = 200 :=
  (shell_invalid_text_empty_string envInvalidOut "cmd" reqNoBody outInv rfl
    (by simp [reqNoBody])).2.2

/-- C10: a process that terminates without an exit code (status.code() is
None, e.g. killed by a signal) yields retcode 0 in the JSON result —
indistinguishable from a successful exit — and the response is still the 200
JSON. -/
theorem retcode_zero_without_exit_code (out : Output) (hc : out.code = none) :
    (CommandResult.from_output out).retcode = 0
    ∧ ∀ (env : Env) (c : String) (req : Request),
        env.shellRun c = some out → req.body ≠ some .err →
        ∃ tr : List Effect,
          shell env c req = .resp (.json (CommandResult.from_output out)) tr
          ∧ (Response.json (CommandResult.from_output out)).status = 200 := by
  refine ⟨by simp [CommandResult.from_output, hc], ?_⟩
  intro env c req hrun hb
  cases hcase : req.body with
  | none => exact ⟨[.spawn c], by simp [shell, hcase, hrun], rfl⟩
  | some b =>
    cases b with
    | ok s => exact ⟨[.readBody, .spawn c], by simp [shell, hcase, hrun], rfl⟩
    | err => exact absurd hcase hb

/-- Output of a process killed before exiting: no exit code. -/
def outKilled : Output := { code := none, stdout := some "x", stderr := some "" }

/-- An environment whose spawned process is killed by a signal. -/
def envKilled : Env := { envOk with shellRun := fun _ => some outKilled }

/-- Witness for C10: the killed process reports retcode 0 with a 200 JSON
response. -/
theorem retcode_zero_without_exit_code_witness :
    (CommandResult.from_output outKilled).retcode = 0
    ∧ ∃ tr : List Effect,
        shell envKilled "cmd" reqNoBody
          = .resp (.json (CommandResult.from_output outKilled)) tr
        ∧ (Response.json (CommandResult.from_output outKilled)).status = 200 :=
  ⟨(retcode_zero_without_exit_code outKilled rfl).1,
   (retcode_zero_without_exit_code outKilled rfl).2 envKilled "cmd" reqNoBody
     rfl (by simp [reqNoBody])⟩

end TeleAPI
